import Mathlib

/-!
Shallow embedding of the real-time presence/room/messaging relay in
`src/server/index.ts` (with the data types of `src/server/types.ts`).

The server keeps two in-memory JS `Map`s, `activeUsers : userId → socketId`
and `userRooms : userId → Set roomId`, while socket.io's adapter keeps
`rooms : roomId → Set socketId`.  JS `Map`/`Set` preserve insertion order, so
they are modelled as association lists / duplicate-free lists with
insert-at-end semantics.  Nondeterministic inputs of a handler (the
`uuidv4()` results and the `Date.now()` clock readings) are carried as data
on the triggering event.  Every `emit` is recorded together with the list of
sockets it is delivered to at emit time (`io.to(room)` delivers to the
adapter's current room set, `io.emit` to every connected socket,
`socket.emit` to that socket when it is still connected).
-/

namespace Relay

/-- JS `Map.get`. -/
def alookup {α : Type} (k : String) : List (String × α) → Option α
  | [] => none
  | (k', v) :: rest => if k' = k then some v else alookup k rest

/-- JS `Map.set`: overwrite in place if the key is present, else append
(insertion order is preserved). -/
def aset {α : Type} (k : String) (v : α) : List (String × α) → List (String × α)
  | [] => [(k, v)]
  | (k', v') :: rest => if k' = k then (k, v) :: rest else (k', v') :: aset k v rest

/-- JS `Map.delete`. -/
def adel {α : Type} (k : String) (l : List (String × α)) : List (String × α) :=
  l.filter (fun e => e.1 ≠ k)

/-- Update the value stored at `k`, if any (used for `map.get(k)?.delete(x)`). -/
def aupdate {α : Type} (k : String) (f : α → α) : List (String × α) → List (String × α)
  | [] => []
  | (k', v) :: rest => if k' = k then (k', f v) :: rest else (k', v) :: aupdate k f rest

/-- JS `Set.add`: append if absent. -/
def sadd (x : String) (l : List String) : List String :=
  if x ∈ l then l else l ++ [x]

/-- JS `Set.delete`. -/
def sdel (x : String) (l : List String) : List String :=
  l.filter (fun y => y ≠ x)

/-- `SocketData.user` of `types.ts`. -/
structure User where
  id : String
  username : String
deriving DecidableEq, Repr

/-- `ChatMessage` of `types.ts`. -/
structure ChatMessage where
  id : String
  userId : String
  roomId : String
  text : String
  timestamp : Nat
deriving DecidableEq, Repr

/-- `NotificationType` of `types.ts`. -/
inductive NotificationType where
  | message
  | mention
  | system
deriving DecidableEq, Repr

/-- `Notification` of `types.ts`. -/
structure Notification where
  id : String
  type : NotificationType
  targetUserId : String
  sourceUserId : Option String
  message : String
  timestamp : Nat
  read : Bool
deriving DecidableEq, Repr

/-- `Room` of `types.ts` (the `roomUpdate` payload). -/
structure Room where
  id : String
  name : String
  users : List String
deriving DecidableEq, Repr

/-- The server's mutable state: the connected sockets with their
`socket.data.user`, the two in-memory maps of `index.ts`, and socket.io's
adapter room table. -/
structure ServerState where
  connected : List String
  socketUser : List (String × User)
  activeUsers : List (String × String)
  userRooms : List (String × List String)
  rooms : List (String × List String)
deriving DecidableEq, Repr

/-- The state of a freshly started server: no sockets, empty maps. -/
def startState : ServerState :=
  { connected := [], socketUser := [], activeUsers := [], userRooms := [], rooms := [] }

/-- `io.sockets.adapter.rooms.get(roomId) || []`. -/
def roomMembers (s : ServerState) (roomId : String) : List String :=
  (alookup roomId s.rooms).getD []

/-- `(alookup uid userRooms) || ∅` : the set of rooms tracked for a user. -/
def userRoomsOf (s : ServerState) (uid : String) : List String :=
  (alookup uid s.userRooms).getD []

/-- `roomId.startsWith('room-') ? roomId.substring(5) : roomId` (character
operations; the strings involved are ASCII, so JS UTF-16 indexing agrees). -/
def roomName (roomId : String) : String :=
  if "room-".toList.isPrefixOf roomId.toList then (roomId.toList.drop 5).asString
  else roomId

/-- The `Room` record built for a `roomUpdate` emission. -/
def roomView (s : ServerState) (roomId : String) : Room :=
  { id := roomId, name := roomName roomId, users := roomMembers s roomId }

/-- `socket.leave(roomId)` on the adapter: remove the socket from the room's
set and drop the room entry when it becomes empty. -/
def adapterLeave (sid roomId : String) : List (String × List String) → List (String × List String)
  | [] => []
  | (r, ms) :: rest =>
      if r = roomId then
        let ms' := sdel sid ms
        if ms'.isEmpty then rest else (r, ms') :: rest
      else (r, ms) :: adapterLeave sid roomId rest

/-- The adapter cleanup socket.io performs when a socket closes, before the
`disconnect` handler runs: the socket leaves every room it was in, and room
entries that become empty are dropped. -/
def adapterLeaveAll (sid : String) : List (String × List String) → List (String × List String)
  | [] => []
  | (r, ms) :: rest =>
      let ms' := sdel sid ms
      if ms'.isEmpty then adapterLeaveAll sid rest
      else (r, ms') :: adapterLeaveAll sid rest

/-- JS `\w`: ASCII letters, digits and underscore. -/
def isWordChar (c : Char) : Bool :=
  ('a' ≤ c && c ≤ 'z') || ('A' ≤ c && c ≤ 'Z') || ('0' ≤ c && c ≤ '9') || c = '_'

/-- The regex scan, structurally recursive on a fuel bound.  Each step
consumes at least one character, so any fuel of at least the list's length
yields the full scan. -/
def mentionAux : Nat → List Char → List String
  | 0, _ => []
  | _, [] => []
  | fuel + 1, c :: rest =>
      if c = '@' then
        let w := rest.takeWhile isWordChar
        if w.isEmpty then mentionAux fuel rest
        else ('@' :: w).asString :: mentionAux fuel (rest.dropWhile isWordChar)
      else mentionAux fuel rest

/-- `text.match(/@(\w+)/g)`: every non-overlapping occurrence, scanning left
to right, of `@` followed by a maximal non-empty run of word characters;
duplicates are kept, in order of occurrence. -/
def mentionMatches (l : List Char) : List String := mentionAux l.length l

/-- The `sendMessage` payload.  Its wire type is
`Omit<ChatMessage, "id" | "timestamp">`; at runtime a client may still attach
`userId`, `id` or `timestamp` fields, and the handler reads only `roomId`
and `text`, so the extra fields are carried here as optional data that the
step function never consumes. -/
structure MsgPayload where
  roomId : String
  text : String
  userId : Option String := none
  id : Option String := none
  timestamp : Option Nat := none
deriving DecidableEq, Repr

/-- The payload of one server→client emission (`ServerToClientEvents`). -/
inductive Payload where
  | chatMessage (m : ChatMessage)
  | notification (n : Notification)
  | roomUpdate (r : Room)
  | connectionStateChange (connected : Bool)
  | errorEv (message : String)
deriving DecidableEq, Repr

/-- One emission together with the sockets it is delivered to at emit time. -/
structure Emit where
  targets : List String
  payload : Payload
deriving DecidableEq, Repr

/-- `socket.emit`: delivered to that socket only while it is connected. -/
def emitToSocket (s : ServerState) (sid : String) (p : Payload) : Emit :=
  { targets := if sid ∈ s.connected then [sid] else [], payload := p }

/-- An inbound network event.  `connect` carries the identity resolved from
the handshake (`auth.userId`/`auth.username`, or the synthesized guest
identity).  `sendMessage` carries the `uuidv4()` value drawn for the message
id, the `Date.now()` reading, and the stream of `uuidv4()` values drawn for
the derived notifications. -/
inductive Event where
  | connect (sid : String) (user : User)
  | joinRoom (sid roomId : String)
  | leaveRoom (sid roomId : String)
  | sendMessage (sid : String) (p : MsgPayload) (freshId : String) (now : Nat)
      (notifIds : List String)
  | readNotification (sid nid : String)
  | disconnect (sid : String)
deriving DecidableEq, Repr

/-- The socket an event arrives on. -/
def Event.actor : Event → String
  | .connect sid _ => sid
  | .joinRoom sid _ => sid
  | .leaveRoom sid _ => sid
  | .sendMessage sid _ _ _ _ => sid
  | .readNotification sid _ => sid
  | .disconnect sid => sid

/-- The notification built for the `k`-th mention occurrence of a message
sent by `user`, stamped at `now` with the `k`-th drawn uuid. -/
def mentionNotif (user : User) (now : Nat) (notifIds : List String) (k : Nat) : Notification :=
  { id := notifIds.getD k ""
    type := .mention
    targetUserId := "all"
    sourceUserId := some user.id
    message := user.username ++ " mentioned you in a message"
    timestamp := now
    read := false }

/-- The complete message the `sendMessage` handler builds: a fresh
server-side id, the sender's registered identity, the client's `roomId` and
`text`, and the server clock reading. -/
def stamp (user : User) (p : MsgPayload) (freshId : String) (now : Nat) : ChatMessage :=
  { id := freshId, userId := user.id, roomId := p.roomId, text := p.text, timestamp := now }

/-- One handler execution, straight from `src/server/index.ts`: the new
server state and the list of emissions, in program order. -/
def step (s : ServerState) : Event → ServerState × List Emit
  | .connect sid user =>
      let s1 : ServerState :=
        { s with connected := sadd sid s.connected
                 socketUser := aset sid user s.socketUser
                 activeUsers := aset user.id sid s.activeUsers }
      (s1, [emitToSocket s1 sid (.connectionStateChange true)])
  | .joinRoom sid roomId =>
      match alookup sid s.socketUser with
      | none => (s, [])
      | some user =>
          let s1 : ServerState :=
            { s with rooms := aset roomId (sadd sid (roomMembers s roomId)) s.rooms
                     userRooms :=
                       aset user.id (sadd roomId (userRoomsOf s user.id)) s.userRooms }
          (s1, [{ targets := roomMembers s1 roomId, payload := .roomUpdate (roomView s1 roomId) }])
  | .leaveRoom sid roomId =>
      match alookup sid s.socketUser with
      | none => (s, [])
      | some user =>
          ({ s with rooms := adapterLeave sid roomId s.rooms
                    userRooms := aupdate user.id (sdel roomId) s.userRooms }, [])
  | .sendMessage sid p freshId now notifIds =>
      match alookup sid s.socketUser with
      | none => (s, [])
      | some user =>
          let message : ChatMessage :=
            { id := freshId, userId := user.id, roomId := p.roomId, text := p.text
              timestamp := now }
          let broadcast : Emit :=
            { targets := roomMembers s message.roomId, payload := .chatMessage message }
          let notifs : List Emit :=
            if message.text.toList.contains '@' then
              (mentionMatches message.text.toList).enum.map
                (fun e => { targets := s.connected
                            payload := .notification (mentionNotif user now notifIds e.1) })
            else []
          (s, broadcast :: notifs)
  | .readNotification _ _ => (s, [])
  | .disconnect sid =>
      let s0 : ServerState :=
        { s with connected := sdel sid s.connected, rooms := adapterLeaveAll sid s.rooms }
      match alookup sid s0.socketUser with
      | none => (s0, [])
      | some user =>
          let s1 : ServerState := { s0 with activeUsers := adel user.id s0.activeUsers }
          let affected := userRoomsOf s1 user.id
          let updates : List Emit :=
            affected.map (fun roomId =>
              { targets := roomMembers s1 roomId, payload := .roomUpdate (roomView s1 roomId) })
          let s2 : ServerState := { s1 with userRooms := adel user.id s1.userRooms }
          (s2, updates ++ [emitToSocket s2 sid (.connectionStateChange false)])

/-- Run a sequence of events, collecting all emissions in order. -/
def runSteps (s : ServerState) : List Event → ServerState × List Emit
  | [] => (s, [])
  | e :: es =>
      let r1 := step s e
      let r2 := runSteps r1.1 es
      (r2.1, r1.2 ++ r2.2)

/-- The chat messages delivered to socket `c` by a list of emissions. -/
def chatDeliveries (c : String) (ems : List Emit) : List ChatMessage :=
  ems.filterMap (fun em =>
    match em.payload with
    | .chatMessage m => if c ∈ em.targets then some m else none
    | _ => none)

/-- The notifications delivered to socket `c` by a list of emissions. -/
def notifDeliveries (c : String) (ems : List Emit) : List Notification :=
  ems.filterMap (fun em =>
    match em.payload with
    | .notification n => if c ∈ em.targets then some n else none
    | _ => none)

/-- All chat messages broadcast by a list of emissions. -/
def sentMessages (ems : List Emit) : List ChatMessage :=
  ems.filterMap (fun em =>
    match em.payload with
    | .chatMessage m => some m
    | _ => none)

/-- All `roomUpdate` payloads of a list of emissions. -/
def roomUpdates (ems : List Emit) : List Room :=
  ems.filterMap (fun em =>
    match em.payload with
    | .roomUpdate r => some r
    | _ => none)

/-- Is the payload one of the three substantive event kinds
(`chatMessage`, `roomUpdate`, `notification`)? -/
def Payload.isCore : Payload → Bool
  | .chatMessage _ => true
  | .roomUpdate _ => true
  | .notification _ => true
  | _ => false

/-- The substantive payloads delivered to socket `c`. -/
def coreDeliveries (c : String) (ems : List Emit) : List Payload :=
  ems.filterMap (fun em =>
    if em.payload.isCore ∧ c ∈ em.targets then some em.payload else none)

/-- `sid` is gone from the transport layer: not connected and in no adapter
room.  This is the situation of a socket right after its disconnect has been
processed, and it persists as long as that socket id never reconnects. -/
def Absent (sid : String) (s : ServerState) : Prop :=
  sid ∉ s.connected ∧ ∀ e ∈ s.rooms, sid ∉ e.2

/-! Concrete fixtures used to evaluate the model on closed inputs. -/

/-- Identity carried by socket `"s1"` in the fixtures. -/
def uA : User := ⟨"u1", "alice"⟩

/-- Identity carried by socket `"s2"` in the fixtures. -/
def uB : User := ⟨"u2", "bob"⟩

/-- Identity carried by socket `"s3"` in the fixtures. -/
def uC : User := ⟨"u3", "carol"⟩

/-- One user connects and joins one room. -/
def traceA : List Event := [.connect "s1" uA, .joinRoom "s1" "room-general"]

/-- Three users connect; two of them share `"room-general"` and the first is
alone in `"beta"`. -/
def traceB : List Event :=
  [ .connect "s1" uA, .connect "s2" uB, .connect "s3" uC,
    .joinRoom "s1" "room-general", .joinRoom "s2" "room-general",
    .joinRoom "s1" "beta" ]

/-- The server state reached by `traceB`. -/
def stateB : ServerState := (runSteps startState traceB).1

/-- Identity `"u"` registers on socket `"c1"`, joins a room, then registers
again on socket `"c2"` (last-write-wins) and joins another room there. -/
def traceD : List Event :=
  [ .connect "c1" ⟨"u", "alice"⟩, .joinRoom "c1" "alpha",
    .connect "c2" ⟨"u", "alice"⟩, .joinRoom "c2" "room-x" ]

/-- The server state reached by `traceD`. -/
def stateD : ServerState := (runSteps startState traceD).1

/-- Events processed after a disconnect of `"s1"` in the fixtures: all of
them arrive on other sockets. -/
def traceC : List Event :=
  [ .sendMessage "s2" ⟨"room-general", "after", none, none, none⟩ "m7" 99 [],
    .joinRoom "s2" "beta",
    .disconnect "s2" ]

theorem alookup_aset_self {α : Type} (k : String) (v : α) (l : List (String × α)) :
    alookup k (aset k v l) = some v := by
  induction l with
  | nil => simp [aset, alookup]
  | cons e l ih =>
      obtain ⟨k', v'⟩ := e
      by_cases h : k' = k
      · simp [aset, h, alookup]
      · simp [aset, h, alookup, ih]

theorem alookup_aset_ne {α : Type} {k k' : String} (v : α) (l : List (String × α))
    (h : k' ≠ k) : alookup k' (aset k v l) = alookup k' l := by
  have hk : ¬ k = k' := fun h' => h h'.symm
  induction l with
  | nil => simp [aset, alookup, hk]
  | cons e l ih =>
      obtain ⟨k'', v''⟩ := e
      by_cases he : k'' = k
      · subst he
        simp [aset, alookup, hk]
      · simp [aset, he, alookup, ih]

theorem alookup_adel_self {α : Type} (k : String) (l : List (String × α)) :
    alookup k (adel k l) = none := by
  induction l with
  | nil => simp [adel, alookup]
  | cons e l ih =>
      obtain ⟨k', v'⟩ := e
      by_cases h : k' = k
      · simpa [adel, h] using ih
      · simpa [adel, alookup, h] using ih

theorem aset_of_alookup_eq {α : Type} {k : String} {v : α} {l : List (String × α)}
    (h : alookup k l = some v) : aset k v l = l := by
  induction l with
  | nil => simp [alookup] at h
  | cons e l ih =>
      obtain ⟨k', v'⟩ := e
      by_cases he : k' = k
      · subst he
        have h' : some v' = some v := by simpa [alookup] using h
        obtain rfl : v' = v := Option.some_inj.1 h'
        simp [aset]
      · simp only [alookup, he, if_false] at h
        simp [aset, he, ih h]

theorem aupdate_of_alookup_none {α : Type} {k : String} (f : α → α) {l : List (String × α)}
    (h : alookup k l = none) : aupdate k f l = l := by
  induction l with
  | nil => simp [aupdate]
  | cons e l ih =>
      obtain ⟨k', v'⟩ := e
      by_cases he : k' = k
      · simp [alookup, he] at h
      · simp only [alookup, he, if_false] at h
        simp [aupdate, he, ih h]

theorem aupdate_of_fix {α : Type} {k : String} {f : α → α} {v : α} {l : List (String × α)}
    (h : alookup k l = some v) (hf : f v = v) : aupdate k f l = l := by
  induction l with
  | nil => simp [alookup] at h
  | cons e l ih =>
      obtain ⟨k', v'⟩ := e
      by_cases he : k' = k
      · subst he
        have h' : some v' = some v := by simpa [alookup] using h
        obtain rfl : v' = v := Option.some_inj.1 h'
        simp [aupdate, hf]
      · simp only [alookup, he, if_false] at h
        simp [aupdate, he, ih h]

theorem alookup_aupdate_self {α : Type} (k : String) (f : α → α) (l : List (String × α)) :
    alookup k (aupdate k f l) = (alookup k l).map f := by
  induction l with
  | nil => simp [aupdate, alookup]
  | cons e l ih =>
      obtain ⟨k', v'⟩ := e
      by_cases he : k' = k
      · simp [aupdate, he, alookup]
      · simp [aupdate, he, alookup, ih]

theorem alookup_mem {α : Type} {k : String} {v : α} {l : List (String × α)}
    (h : alookup k l = some v) : (k, v) ∈ l := by
  induction l with
  | nil => simp [alookup] at h
  | cons e l ih =>
      obtain ⟨k', v'⟩ := e
      by_cases he : k' = k
      · subst he
        have h' : some v' = some v := by simpa [alookup] using h
        obtain rfl : v' = v := Option.some_inj.1 h'
        simp
      · simp only [alookup, he, if_false] at h
        exact List.mem_cons_of_mem _ (ih h)

theorem mem_aset {α : Type} {e : String × α} {k : String} {v : α} {l : List (String × α)}
    (h : e ∈ aset k v l) : e = (k, v) ∨ e ∈ l := by
  induction l with
  | nil => simpa [aset] using h
  | cons e' l ih =>
      obtain ⟨k', v'⟩ := e'
      by_cases he : k' = k
      · simp only [aset, he, if_pos rfl] at h
        rcases List.mem_cons.1 h with h | h
        · exact .inl h
        · exact .inr (List.mem_cons_of_mem _ h)
      · simp only [aset, he, if_false] at h
        rcases List.mem_cons.1 h with h | h
        · exact .inr (by simp [h])
        · rcases ih h with h | h
          · exact .inl h
          · exact .inr (List.mem_cons_of_mem _ h)

theorem mem_sadd_self (x : String) (l : List String) : x ∈ sadd x l := by
  by_cases h : x ∈ l <;> simp [sadd, h]

theorem mem_of_mem_sadd {x y : String} {l : List String} (h : y ∈ sadd x l) :
    y = x ∨ y ∈ l := by
  by_cases hx : x ∈ l
  · simp only [sadd, if_pos hx] at h
    exact .inr h
  · simp only [sadd, if_neg hx, List.mem_append, List.mem_singleton] at h
    tauto

theorem sadd_of_mem {x : String} {l : List String} (h : x ∈ l) : sadd x l = l := by
  simp [sadd, h]

theorem not_mem_sdel (x : String) (l : List String) : x ∉ sdel x l := by
  simp [sdel]

theorem mem_sdel_of_mem {x y : String} {l : List String} (hne : y ≠ x) (h : y ∈ l) :
    y ∈ sdel x l := by
  simp [sdel, hne, h]

theorem sdel_of_not_mem {x : String} {l : List String} (h : x ∉ l) : sdel x l = l := by
  simp only [sdel]
  exact List.filter_eq_self.2 (fun y hy => by
    simp only [ne_eq, decide_eq_true_eq]
    exact fun hxy => h (hxy ▸ hy))

theorem count_sadd_self {x : String} {l : List String} (h : l.Nodup) :
    (sadd x l).count x = 1 := by
  by_cases hx : x ∈ l
  · rw [sadd_of_mem hx]
    have h1 : l.count x ≤ 1 := List.nodup_iff_count_le_one.1 h x
    have h2 : 0 < l.count x := List.count_pos_iff.2 hx
    omega
  · simp [sadd, hx, List.count_append, List.count_eq_zero_of_not_mem hx]

theorem mentionAux_eq_nil (fuel : Nat) : ∀ {l : List Char}, '@' ∉ l → mentionAux fuel l = [] := by
  induction fuel with
  | zero => intro l h; cases l <;> rfl
  | succ f ih =>
      intro l h
      cases l with
      | nil => rfl
      | cons c rest =>
          have hc : ¬ c = '@' := fun hc => h (by simp [hc])
          have hr : '@' ∉ rest := fun hr => h (List.mem_cons_of_mem _ hr)
          simp [mentionAux, hc, ih hr]

theorem mentionMatches_eq_nil {l : List Char} (h : '@' ∉ l) : mentionMatches l = [] :=
  mentionAux_eq_nil l.length h

theorem step_sendMessage_eq (s : ServerState) (sid : String) (user : User) (p : MsgPayload)
    (freshId : String) (now : Nat) (notifIds : List String)
    (h : alookup sid s.socketUser = some user) :
    step s (.sendMessage sid p freshId now notifIds) =
      (s, { targets := roomMembers s p.roomId
            payload := .chatMessage (stamp user p freshId now) } ::
          (mentionMatches p.text.toList).enum.map (fun e =>
            { targets := s.connected
              payload := .notification (mentionNotif user now notifIds e.1) })) := by
  simp only [step, h, stamp]
  simp
  exact fun h' => mentionMatches_eq_nil h'

theorem chatDeliveries_mentionEmits (c : String) (conn : List String) (user : User) (now : Nat)
    (notifIds : List String) (l : List (Nat × String)) :
    chatDeliveries c (l.map (fun e =>
      { targets := conn, payload := .notification (mentionNotif user now notifIds e.1) })) = [] := by
  induction l with
  | nil => rfl
  | cons e l ih => simpa [chatDeliveries, List.filterMap_cons] using ih

theorem sentMessages_mentionEmits (conn : List String) (user : User) (now : Nat)
    (notifIds : List String) (l : List (Nat × String)) :
    sentMessages (l.map (fun e =>
      { targets := conn, payload := .notification (mentionNotif user now notifIds e.1) })) = [] := by
  induction l with
  | nil => rfl
  | cons e l ih => simpa [sentMessages, List.filterMap_cons] using ih

theorem notifDeliveries_mentionEmits (c : String) (conn : List String) (user : User) (now : Nat)
    (notifIds : List String) (l : List (Nat × String)) :
    notifDeliveries c (l.map (fun e =>
      { targets := conn, payload := .notification (mentionNotif user now notifIds e.1) }))
      = if c ∈ conn then l.map (fun e => mentionNotif user now notifIds e.1) else [] := by
  induction l with
  | nil => simp [notifDeliveries]
  | cons e l ih =>
      by_cases hc : c ∈ conn
      · simp [notifDeliveries, List.filterMap_cons, hc] at ih ⊢
        exact ih
      · simp [notifDeliveries, List.filterMap_cons, hc] at ih ⊢

theorem chatDeliveries_step_send (s : ServerState) (sid : String) (user : User) (p : MsgPayload)
    (freshId : String) (now : Nat) (notifIds : List String)
    (h : alookup sid s.socketUser = some user) (c : String) :
    chatDeliveries c (step s (.sendMessage sid p freshId now notifIds)).2
      = if c ∈ roomMembers s p.roomId then [stamp user p freshId now] else [] := by
  rw [step_sendMessage_eq s sid user p freshId now notifIds h]
  by_cases hc : c ∈ roomMembers s p.roomId
  · simp [chatDeliveries, List.filterMap_cons, hc]
  · simp [chatDeliveries, List.filterMap_cons, hc]

theorem sentMessages_step_send (s : ServerState) (sid : String) (user : User) (p : MsgPayload)
    (freshId : String) (now : Nat) (notifIds : List String)
    (h : alookup sid s.socketUser = some user) :
    sentMessages (step s (.sendMessage sid p freshId now notifIds)).2
      = [stamp user p freshId now] := by
  rw [step_sendMessage_eq s sid user p freshId now notifIds h]
  simp [sentMessages, List.filterMap_cons]

/-- Claim C2: every connection that is a member of the target room at
broadcast time receives exactly one copy of the stamped message — the
delivery list of socket `c` is `[stamped]` when `c` is in the adapter's room
set and `[]` otherwise — and in particular the sender's own connection, when
it is a member, receives the copy (echo-back). -/
theorem c2_room_broadcast (s : ServerState) (sid : String) (user : User) (p : MsgPayload)
    (freshId : String) (now : Nat) (notifIds : List String)
    (h : alookup sid s.socketUser = some user) :
    sentMessages (step s (.sendMessage sid p freshId now notifIds)).2
        = [stamp user p freshId now]
    ∧ (∀ c : String,
        chatDeliveries c (step s (.sendMessage sid p freshId now notifIds)).2
          = if c ∈ roomMembers s p.roomId then [stamp user p freshId now] else [])
    ∧ (sid ∈ roomMembers s p.roomId →
        chatDeliveries sid (step s (.sendMessage sid p freshId now notifIds)).2
          = [stamp user p freshId now]) := by
  refine ⟨sentMessages_step_send s sid user p freshId now notifIds h,
    fun c => chatDeliveries_step_send s sid user p freshId now notifIds h c, fun hm => ?_⟩
  rw [chatDeliveries_step_send s sid user p freshId now notifIds h sid, if_pos hm]

/-- Witness for C2 at a concrete input: in `stateB`, the room
`"room-general"` holds sockets `"s1"` and `"s2"`; a message sent by `"s1"`
is delivered once to each member, `"s1"` (the sender) included. -/
theorem c2_witness :
    (alookup "s1" stateB.socketUser = some uA
      ∧ "s1" ∈ roomMembers stateB "room-general"
      ∧ "s2" ∈ roomMembers stateB "room-general")
    ∧ chatDeliveries "s2"
        (step stateB (.sendMessage "s1" ⟨"room-general", "hello", none, none, none⟩
          "m1" 42 [])).2
      = (if "s2" ∈ roomMembers stateB "room-general"
          then [stamp uA ⟨"room-general", "hello", none, none, none⟩ "m1" 42] else [])
    ∧ chatDeliveries "s1"
        (step stateB (.sendMessage "s1" ⟨"room-general", "hello", none, none, none⟩
          "m1" 42 [])).2
      = [stamp uA ⟨"room-general", "hello", none, none, none⟩ "m1" 42] :=
  ⟨by decide,
    (c2_room_broadcast stateB "s1" uA ⟨"room-general", "hello", none, none, none⟩
      "m1" 42 [] (by decide)).2.1 "s2",
    (c2_room_broadcast stateB "s1" uA ⟨"room-general", "hello", none, none, none⟩
      "m1" 42 [] (by decide)).2.2 (by decide)⟩

/-- Claim C3: the broadcast message carries the server-drawn fresh id and the
server clock reading at processing time, the sender's registered `userId`,
and the client's `roomId` and `text`; any client-supplied `userId`, `id` or
`timestamp` field of the payload is ignored (the handler's entire output is
unchanged under them). -/
theorem c3_server_stamping (s : ServerState) (sid : String) (user : User) (p : MsgPayload)
    (freshId : String) (now : Nat) (notifIds : List String)
    (h : alookup sid s.socketUser = some user) :
    sentMessages (step s (.sendMessage sid p freshId now notifIds)).2
        = [stamp user p freshId now]
    ∧ stamp user p freshId now
        = { id := freshId, userId := user.id, roomId := p.roomId, text := p.text
            timestamp := now }
    ∧ ∀ cuid : Option String, ∀ cid : Option String, ∀ cts : Option Nat,
        step s (.sendMessage sid
            { roomId := p.roomId, text := p.text, userId := cuid, id := cid, timestamp := cts }
            freshId now notifIds)
          = step s (.sendMessage sid p freshId now notifIds) := by
  refine ⟨sentMessages_step_send s sid user p freshId now notifIds h, rfl,
    fun cuid cid cts => ?_⟩
  rw [step_sendMessage_eq s sid user
      { roomId := p.roomId, text := p.text, userId := cuid, id := cid, timestamp := cts }
      freshId now notifIds h,
    step_sendMessage_eq s sid user p freshId now notifIds h]
  rfl

/-- Witness for C3 at a concrete input: the stamped copy in `stateB` uses the
fresh id `"m1"`, clock `42`, the registered sender `"u1"`, and the payload's
room and text, for any client-supplied `userId`/`id`/`timestamp`. -/
theorem c3_witness :
    alookup "s1" stateB.socketUser = some uA
    ∧ (sentMessages (step stateB (.sendMessage "s1"
          ⟨"room-general", "hi", some "u9", some "fake-id", some 999⟩ "m1" 42 [])).2
        = [stamp uA ⟨"room-general", "hi", some "u9", some "fake-id", some 999⟩ "m1" 42]
      ∧ stamp uA ⟨"room-general", "hi", some "u9", some "fake-id", some 999⟩ "m1" 42
        = { id := "m1", userId := "u1", roomId := "room-general", text := "hi"
            timestamp := 42 }
      ∧ ∀ cuid : Option String, ∀ cid : Option String, ∀ cts : Option Nat,
          step stateB (.sendMessage "s1"
              { roomId := "room-general", text := "hi", userId := cuid, id := cid
                timestamp := cts } "m1" 42 [])
            = step stateB (.sendMessage "s1"
                ⟨"room-general", "hi", some "u9", some "fake-id", some 999⟩ "m1" 42 [])) :=
  ⟨by decide,
    c3_server_stamping stateB "s1" uA
      ⟨"room-general", "hi", some "u9", some "fake-id", some 999⟩ "m1" 42 [] (by decide)⟩

/-- Claim C5 counterexample: in `stateB`, the text `"hi @bob @bob"` has one
distinct `@`-token but socket `"s2"` is delivered two MENTION notifications,
one per occurrence — duplicates are not collapsed. -/
theorem c5_counterexample :
    (notifDeliveries "s2"
        (step stateB (.sendMessage "s1" ⟨"room-general", "hi @bob @bob", none, none, none⟩
          "m1" 7 ["n1", "n2"])).2).length = 2
    ∧ (mentionMatches "hi @bob @bob".toList).dedup.length = 1 := by
  decide

/-- Claim C5 (amended): for each occurrence of an `@`-token (`@` followed by
one or more word characters) in the sent text — duplicates included, one per
occurrence, in order — a MENTION notification with `sourceUserId` the sender,
`targetUserId` `"all"` and message `"<username> mentioned you in a message"`
is broadcast to every connected client; sockets not connected receive none. -/
theorem c5_mentions_per_occurrence (s : ServerState) (sid : String) (user : User)
    (p : MsgPayload) (freshId : String) (now : Nat) (notifIds : List String)
    (h : alookup sid s.socketUser = some user) :
    (∀ c : String,
      notifDeliveries c (step s (.sendMessage sid p freshId now notifIds)).2
        = if c ∈ s.connected then
            (mentionMatches p.text.toList).enum.map (fun e => mentionNotif user now notifIds e.1)
          else [])
    ∧ ∀ k : Nat,
        mentionNotif user now notifIds k
          = { id := notifIds.getD k "", type := .mention, targetUserId := "all"
              sourceUserId := some user.id
              message := user.username ++ " mentioned you in a message"
              timestamp := now, read := false } := by
  refine ⟨fun c => ?_, fun k => rfl⟩
  rw [step_sendMessage_eq s sid user p freshId now notifIds h]
  have hm := notifDeliveries_mentionEmits c s.connected user now notifIds
    (mentionMatches p.text.toList).enum
  by_cases hc : c ∈ s.connected
  · simpa [notifDeliveries, List.filterMap_cons, hc] using hm
  · simpa [notifDeliveries, List.filterMap_cons, hc] using hm

/-- Witness for the amended C5 at a concrete input: in `stateB`, the text
`"yo @bob @bob"` sent by `"s1"` delivers to the connected socket `"s3"`
exactly two MENTION notifications, one per occurrence. -/
theorem c5_witness :
    alookup "s1" stateB.socketUser = some uA
    ∧ notifDeliveries "s3"
        (step stateB (.sendMessage "s1" ⟨"room-general", "yo @bob @bob", none, none, none⟩
          "m1" 7 ["n1", "n2"])).2
      = (if "s3" ∈ stateB.connected then
          (mentionMatches ("yo @bob @bob" : String).toList).enum.map
            (fun e => mentionNotif uA 7 ["n1", "n2"] e.1)
        else []) :=
  ⟨by decide,
    (c5_mentions_per_occurrence stateB "s1" uA
      ⟨"room-general", "yo @bob @bob", none, none, none⟩ "m1" 7 ["n1", "n2"]
      (by decide)).1 "s3"⟩

/-- Claim C6: `sendMessage` performs no membership check — even when the
sending socket is not in the adapter's room set and the room is not in the
sender's tracked room set, the message is still stamped and broadcast to all
current members of the room. -/
theorem c6_no_membership_check (s : ServerState) (sid : String) (user : User) (p : MsgPayload)
    (freshId : String) (now : Nat) (notifIds : List String)
    (h : alookup sid s.socketUser = some user)
    (hmem : sid ∉ roomMembers s p.roomId)
    (hrk : p.roomId ∉ userRoomsOf s user.id) :
    sentMessages (step s (.sendMessage sid p freshId now notifIds)).2
        = [stamp user p freshId now]
    ∧ ∀ c : String,
        chatDeliveries c (step s (.sendMessage sid p freshId now notifIds)).2
          = if c ∈ roomMembers s p.roomId then [stamp user p freshId now] else [] :=
  ⟨sentMessages_step_send s sid user p freshId now notifIds h,
    fun c => chatDeliveries_step_send s sid user p freshId now notifIds h c⟩

/-- Witness for C6 at a concrete input: `"s3"` is not a member of
`"room-general"` in `stateB`, yet its message is stamped and delivered to the
member `"s2"`. -/
theorem c6_witness :
    (alookup "s3" stateB.socketUser = some uC
      ∧ "s3" ∉ roomMembers stateB "room-general"
      ∧ "room-general" ∉ userRoomsOf stateB "u3")
    ∧ sentMessages (step stateB (.sendMessage "s3"
          ⟨"room-general", "intruding", none, none, none⟩ "m2" 50 [])).2
        = [stamp uC ⟨"room-general", "intruding", none, none, none⟩ "m2" 50]
    ∧ chatDeliveries "s2" (step stateB (.sendMessage "s3"
          ⟨"room-general", "intruding", none, none, none⟩ "m2" 50 [])).2
        = (if "s2" ∈ roomMembers stateB "room-general"
            then [stamp uC ⟨"room-general", "intruding", none, none, none⟩ "m2" 50] else []) :=
  ⟨by decide,
    (c6_no_membership_check stateB "s3" uC ⟨"room-general", "intruding", none, none, none⟩
      "m2" 50 [] (by decide) (by decide) (by decide)).1,
    (c6_no_membership_check stateB "s3" uC ⟨"room-general", "intruding", none, none, none⟩
      "m2" 50 [] (by decide) (by decide) (by decide)).2 "s2"⟩

theorem alookup_eq_none_of_forall {α : Type} {k : String} {l : List (String × α)}
    (h : ∀ e ∈ l, e.1 ≠ k) : alookup k l = none := by
  induction l with
  | nil => rfl
  | cons e l ih =>
      obtain ⟨k', v'⟩ := e
      have hk : k' ≠ k := h (k', v') (by simp)
      simp only [alookup, hk, if_false]
      exact ih (fun e he => h e (List.mem_cons_of_mem _ he))

theorem step_joinRoom_eq (s : ServerState) (sid : String) (user : User) (roomId : String)
    (h : alookup sid s.socketUser = some user) :
    step s (.joinRoom sid roomId) =
      ({ s with rooms := aset roomId (sadd sid (roomMembers s roomId)) s.rooms
                userRooms := aset user.id (sadd roomId (userRoomsOf s user.id)) s.userRooms },
       [{ targets := sadd sid (roomMembers s roomId)
          payload := .roomUpdate
            { id := roomId, name := roomName roomId
              users := sadd sid (roomMembers s roomId) } }]) := by
  simp [step, h, roomView, roomMembers, alookup_aset_self]

/-- Claim C7: `joinRoom` is idempotent on membership — after a first join,
a second identical join leaves the entire server state unchanged, the
identity occurs exactly once in the room's member set and the room exactly
once in the user's room set, and each of the two calls emits the same single
`roomUpdate` roster to all current members of the room, the joiner
included. -/
theorem c7_join_idempotent (s : ServerState) (sid : String) (user : User) (roomId : String)
    (h : alookup sid s.socketUser = some user)
    (hnd1 : (roomMembers s roomId).Nodup)
    (hnd2 : (userRoomsOf s user.id).Nodup) :
    (step (step s (.joinRoom sid roomId)).1 (.joinRoom sid roomId)).1
        = (step s (.joinRoom sid roomId)).1
    ∧ (roomMembers (step s (.joinRoom sid roomId)).1 roomId).count sid = 1
    ∧ (userRoomsOf (step s (.joinRoom sid roomId)).1 user.id).count roomId = 1
    ∧ (step s (.joinRoom sid roomId)).2
        = [{ targets := roomMembers (step s (.joinRoom sid roomId)).1 roomId
             payload := .roomUpdate (roomView (step s (.joinRoom sid roomId)).1 roomId) }]
    ∧ (step (step s (.joinRoom sid roomId)).1 (.joinRoom sid roomId)).2
        = (step s (.joinRoom sid roomId)).2
    ∧ sid ∈ roomMembers (step s (.joinRoom sid roomId)).1 roomId := by
  have e1 := step_joinRoom_eq s sid user roomId h
  have hs1 : (step s (.joinRoom sid roomId)).1
      = { s with rooms := aset roomId (sadd sid (roomMembers s roomId)) s.rooms
                 userRooms := aset user.id (sadd roomId (userRoomsOf s user.id)) s.userRooms } := by
    rw [e1]
  have hlookM : alookup roomId (step s (.joinRoom sid roomId)).1.rooms
      = some (sadd sid (roomMembers s roomId)) := by
    rw [hs1]
    exact alookup_aset_self roomId _ s.rooms
  have hlookR : alookup user.id (step s (.joinRoom sid roomId)).1.userRooms
      = some (sadd roomId (userRoomsOf s user.id)) := by
    rw [hs1]
    exact alookup_aset_self user.id _ s.userRooms
  have hmem1 : roomMembers (step s (.joinRoom sid roomId)).1 roomId
      = sadd sid (roomMembers s roomId) := by
    simp [roomMembers, hlookM]
  have hur1 : userRoomsOf (step s (.joinRoom sid roomId)).1 user.id
      = sadd roomId (userRoomsOf s user.id) := by
    simp [userRoomsOf, hlookR]
  have hsu1 : alookup sid (step s (.joinRoom sid roomId)).1.socketUser = some user := by
    rw [hs1]
    exact h
  have e2 := step_joinRoom_eq (step s (.joinRoom sid roomId)).1 sid user roomId hsu1
  have hMM : sadd sid (sadd sid (roomMembers s roomId)) = sadd sid (roomMembers s roomId) :=
    sadd_of_mem (mem_sadd_self sid _)
  have hRR : sadd roomId (sadd roomId (userRoomsOf s user.id))
      = sadd roomId (userRoomsOf s user.id) :=
    sadd_of_mem (mem_sadd_self roomId _)
  refine ⟨?_, ?_, ?_, ?_, ?_, ?_⟩
  · rw [e2]
    simp only [hmem1, hur1, hMM, hRR]
    rw [aset_of_alookup_eq hlookM, aset_of_alookup_eq hlookR]
  · rw [hmem1]
    exact count_sadd_self hnd1
  · rw [hur1]
    exact count_sadd_self hnd2
  · rw [e1]
    simp [roomView, roomMembers, alookup_aset_self]
  · rw [e2, e1]
    simp [roomMembers, alookup_aset_self, hMM]
    exact sadd_of_mem (mem_sadd_self sid _)
  · rw [hmem1]
    exact mem_sadd_self sid _

/-- Witness for C7 at a concrete input: `"s3"` joining `"room-general"`
twice in `stateB` — the second join changes nothing and `"s3"` is tracked
exactly once. -/
theorem c7_witness :
    (alookup "s3" stateB.socketUser = some uC
      ∧ (roomMembers stateB "room-general").Nodup
      ∧ (userRoomsOf stateB "u3").Nodup)
    ∧ (step (step stateB (.joinRoom "s3" "room-general")).1 (.joinRoom "s3" "room-general")).1
        = (step stateB (.joinRoom "s3" "room-general")).1
    ∧ (roomMembers (step stateB (.joinRoom "s3" "room-general")).1 "room-general").count "s3"
        = 1 :=
  ⟨⟨by decide, by decide, by decide⟩,
    (c7_join_idempotent stateB "s3" uC "room-general" (by decide) (by decide) (by decide)).1,
    (c7_join_idempotent stateB "s3" uC "room-general" (by decide) (by decide) (by decide)).2.1⟩

theorem step_leaveRoom_eq (s : ServerState) (sid : String) (user : User) (roomId : String)
    (h : alookup sid s.socketUser = some user) :
    step s (.leaveRoom sid roomId) =
      ({ s with rooms := adapterLeave sid roomId s.rooms
                userRooms := aupdate user.id (sdel roomId) s.userRooms }, []) := by
  simp [step, h]

theorem alookup_adapterLeave_self (sid roomId : String) (L : List (String × List String))
    (hkeys : (L.map Prod.fst).Nodup) :
    sid ∉ (alookup roomId (adapterLeave sid roomId L)).getD [] := by
  induction L with
  | nil => simp [adapterLeave, alookup]
  | cons e L ih =>
      obtain ⟨r, ms⟩ := e
      simp only [List.map_cons, List.nodup_cons] at hkeys
      by_cases hr : r = roomId
      · subst hr
        simp only [adapterLeave, if_pos rfl]
        by_cases he : (sdel sid ms).isEmpty
        · simp only [he, if_true]
          have hnone : alookup r L = none :=
            alookup_eq_none_of_forall (fun e he' => by
              intro hk
              exact hkeys.1 (hk ▸ List.mem_map_of_mem Prod.fst he'))
          simp [hnone]
        · simp only [he, if_false]
          simp [alookup, not_mem_sdel]
      · simp only [adapterLeave, hr, if_false]
        simp only [alookup, hr, if_false]
        exact ih hkeys.2

theorem adapterLeave_of_not_mem {sid roomId : String} {L : List (String × List String)}
    (h1 : sid ∉ (alookup roomId L).getD []) (h2 : ∀ e ∈ L, e.2 ≠ []) :
    adapterLeave sid roomId L = L := by
  induction L with
  | nil => rfl
  | cons e L ih =>
      obtain ⟨r, ms⟩ := e
      by_cases hr : r = roomId
      · subst hr
        simp only [alookup, if_pos rfl, Option.getD_some] at h1
        have hms : sdel sid ms = ms := sdel_of_not_mem h1
        have hne : ms ≠ [] := h2 (r, ms) (by simp)
        simp only [adapterLeave, if_pos rfl, hms]
        simp [List.isEmpty_iff, hne]
      · simp only [alookup, hr, if_false] at h1
        simp only [adapterLeave, hr, if_false]
        rw [ih h1 (fun e he => h2 e (List.mem_cons_of_mem _ he))]

/-- Claim C8 counterexample: in `stateB`, socket `"s1"` leaves
`"room-general"` while `"s2"` stays a member, yet the handler emits nothing
at all — in particular no `roomUpdate` roster reaches the remaining
member. -/
theorem c8_counterexample :
    "s2" ∈ roomMembers stateB "room-general"
    ∧ (step stateB (.leaveRoom "s1" "room-general")).2 = []
    ∧ "s2" ∈ roomMembers (step stateB (.leaveRoom "s1" "room-general")).1 "room-general" := by
  decide

/-- Claim C8 (amended): `leaveRoom` removes the identity from the room's
member set and from the user's tracked room set, and is a no-op on the state
when the identity is not a member — but it emits no `roomUpdate` (nor any
other event) to the remaining members. -/
theorem c8_leave_removes_silently (s : ServerState) (sid : String) (user : User)
    (roomId : String)
    (h : alookup sid s.socketUser = some user)
    (hkeys : (s.rooms.map Prod.fst).Nodup) :
    (step s (.leaveRoom sid roomId)).2 = []
    ∧ sid ∉ roomMembers (step s (.leaveRoom sid roomId)).1 roomId
    ∧ roomId ∉ userRoomsOf (step s (.leaveRoom sid roomId)).1 user.id
    ∧ (sid ∉ roomMembers s roomId → roomId ∉ userRoomsOf s user.id →
        (∀ e ∈ s.rooms, e.2 ≠ []) → (step s (.leaveRoom sid roomId)).1 = s) := by
  have e1 := step_leaveRoom_eq s sid user roomId h
  have hs1 : (step s (.leaveRoom sid roomId)).1
      = { s with rooms := adapterLeave sid roomId s.rooms
                 userRooms := aupdate user.id (sdel roomId) s.userRooms } := by
    rw [e1]
  refine ⟨by rw [e1], ?_, ?_, ?_⟩
  · rw [hs1]
    exact alookup_adapterLeave_self sid roomId s.rooms hkeys
  · rw [hs1]
    simp only [userRoomsOf]
    show roomId ∉ (alookup user.id (aupdate user.id (sdel roomId) s.userRooms)).getD []
    rw [alookup_aupdate_self]
    cases hu : alookup user.id s.userRooms with
    | none => simp
    | some R => simp [not_mem_sdel]
  · intro hm hu hne
    rw [hs1, adapterLeave_of_not_mem hm hne]
    have hur : aupdate user.id (sdel roomId) s.userRooms = s.userRooms := by
      cases hq : alookup user.id s.userRooms with
      | none => exact aupdate_of_alookup_none _ hq
      | some R =>
          have : roomId ∉ R := by
            simpa [userRoomsOf, hq] using hu
          exact aupdate_of_fix hq (sdel_of_not_mem this)
    rw [hur]

/-- Witness for the amended C8 at a concrete input: `"s1"` leaving
`"room-general"` in `stateB` emits nothing and removes `"s1"` from the
room. -/
theorem c8_witness :
    (alookup "s1" stateB.socketUser = some uA
      ∧ (stateB.rooms.map Prod.fst).Nodup)
    ∧ (step stateB (.leaveRoom "s1" "room-general")).2 = []
    ∧ "s1" ∉ roomMembers (step stateB (.leaveRoom "s1" "room-general")).1 "room-general"
    ∧ "room-general" ∉ userRoomsOf (step stateB (.leaveRoom "s1" "room-general")).1 "u1" :=
  ⟨⟨by decide, by decide⟩,
    (c8_leave_removes_silently stateB "s1" uA "room-general" (by decide) (by decide)).1,
    (c8_leave_removes_silently stateB "s1" uA "room-general" (by decide) (by decide)).2.1,
    (c8_leave_removes_silently stateB "s1" uA "room-general" (by decide) (by decide)).2.2.1⟩

/-- Claim C9 counterexample: at a concrete state, processing
`readNotification` leaves the entire server state unchanged and emits
nothing — no `read = true` is recorded anywhere for the requesting identity
(the server keeps no notification store at all: the handler only logs). -/
theorem c9_counterexample : step stateB (.readNotification "s1" "n1") = (stateB, []) := rfl

/-- Claim C9 (amended): `readNotification` is accepted but is a pure no-op —
for every state and every notification id the handler leaves the server
state unchanged, emits no event, and records nothing (the reference handler
body is a `console.log` only). -/
theorem c9_read_noop (s : ServerState) (sid nid : String) :
    step s (.readNotification sid nid) = (s, []) := rfl

/-- Claim C1, evaluated at the failing input: identity `"u1"` connects on
socket `"s1"` and joins `"room-general"`.  The published roster is
`["s1"]` — the adapter's socket ids — while the set of identities that have
joined and not left is `{"u1"}` (as the membership table confirms), and
`"s1" ≠ "u1"`.  The `users` field therefore does not equal the set of
userIds, contradicting both the claim and the `types.ts` comment
`users: string[] // Array of user IDs`. -/
theorem c1_roster_socket_ids :
    roomUpdates (runSteps startState traceA).2
      = [{ id := "room-general", name := "general", users := ["s1"] }]
    ∧ userRoomsOf (runSteps startState traceA).1 "u1" = ["room-general"]
    ∧ "s1" ≠ "u1" := by
  decide

theorem sdel_subset {x y : String} {l : List String} (h : y ∈ sdel x l) : y ∈ l :=
  (List.mem_filter.1 h).1

theorem step_disconnect_eq (s : ServerState) (sid : String) (user : User)
    (h : alookup sid s.socketUser = some user) :
    step s (.disconnect sid) =
      ({ s with connected := sdel sid s.connected
                rooms := adapterLeaveAll sid s.rooms
                activeUsers := adel user.id s.activeUsers
                userRooms := adel user.id s.userRooms },
       (userRoomsOf s user.id).map (fun roomId =>
         { targets := (alookup roomId (adapterLeaveAll sid s.rooms)).getD []
           payload := .roomUpdate
             { id := roomId, name := roomName roomId
               users := (alookup roomId (adapterLeaveAll sid s.rooms)).getD [] } })
       ++ [{ targets := [], payload := .connectionStateChange false }]) := by
  simp [step, h, roomMembers, userRoomsOf, roomView, emitToSocket, not_mem_sdel]

theorem mem_alookup_adapterLeaveAll {sid x : String} (hx : x ≠ sid) (r : String)
    (L : List (String × List String)) (h : x ∈ (alookup r L).getD []) :
    x ∈ (alookup r (adapterLeaveAll sid L)).getD [] := by
  induction L with
  | nil => simpa [alookup] using h
  | cons e L ih =>
      obtain ⟨k, ms⟩ := e
      by_cases hk : k = r
      · subst hk
        simp only [alookup, if_pos rfl, Option.getD_some] at h
        have hxm : x ∈ sdel sid ms := mem_sdel_of_mem hx h
        have hne : ¬ (sdel sid ms).isEmpty := by
          cases hsd : sdel sid ms with
          | nil => rw [hsd] at hxm; cases hxm
          | cons a t => simp
        simp [adapterLeaveAll, hne, alookup, hxm]
      · simp only [alookup, hk, if_false] at h
        have := ih h
        by_cases hne : (sdel sid ms).isEmpty
        · simpa [adapterLeaveAll, hne] using this
        · simpa [adapterLeaveAll, hne, alookup, hk] using this

/-- Claim C10: disconnect cleanup is keyed by `userId`, not by connection.
If identity `u` is currently registered to the newer socket `sid2` but the
stale socket `sid1` (still carrying `u` as its socket data) disconnects, the
handler still deletes `u` from `activeUsers` and deletes `u`'s entire
`userRooms` entry, while the newer connection `sid2` remains connected and
remains inside its adapter rooms — its registry state is clobbered. -/
theorem c10_disconnect_keyed_by_userId (s : ServerState) (sid1 sid2 : String) (u : User)
    (h1 : alookup sid1 s.socketUser = some u)
    (h2 : alookup u.id s.activeUsers = some sid2)
    (hne : sid2 ≠ sid1)
    (hconn : sid2 ∈ s.connected) :
    alookup u.id (step s (.disconnect sid1)).1.activeUsers = none
    ∧ alookup u.id (step s (.disconnect sid1)).1.userRooms = none
    ∧ sid2 ∈ (step s (.disconnect sid1)).1.connected
    ∧ ∀ r : String, sid2 ∈ roomMembers s r →
        sid2 ∈ roomMembers (step s (.disconnect sid1)).1 r := by
  rw [step_disconnect_eq s sid1 u h1]
  refine ⟨alookup_adel_self _ _, alookup_adel_self _ _, mem_sdel_of_mem hne hconn,
    fun r hr => ?_⟩
  exact mem_alookup_adapterLeaveAll hne r s.rooms hr

/-- Witness for C10 at a concrete input: in `stateD`, identity `"u"`
registered on `"c1"`, joined `"alpha"`, re-registered on `"c2"` and joined
`"room-x"`; disconnecting the stale `"c1"` wipes `"u"` from both maps while
`"c2"` is still connected and still in `"room-x"`. -/
theorem c10_witness :
    (alookup "c1" stateD.socketUser = some ⟨"u", "alice"⟩
      ∧ alookup "u" stateD.activeUsers = some "c2"
      ∧ "c2" ≠ "c1"
      ∧ "c2" ∈ stateD.connected
      ∧ "c2" ∈ roomMembers stateD "room-x")
    ∧ alookup "u" (step stateD (.disconnect "c1")).1.activeUsers = none
    ∧ alookup "u" (step stateD (.disconnect "c1")).1.userRooms = none
    ∧ "c2" ∈ (step stateD (.disconnect "c1")).1.connected
    ∧ "c2" ∈ roomMembers (step stateD (.disconnect "c1")).1 "room-x" :=
  ⟨by decide,
    (c10_disconnect_keyed_by_userId stateD "c1" "c2" ⟨"u", "alice"⟩
      (by decide) (by decide) (by decide) (by decide)).1,
    (c10_disconnect_keyed_by_userId stateD "c1" "c2" ⟨"u", "alice"⟩
      (by decide) (by decide) (by decide) (by decide)).2.1,
    (c10_disconnect_keyed_by_userId stateD "c1" "c2" ⟨"u", "alice"⟩
      (by decide) (by decide) (by decide) (by decide)).2.2.1,
    (c10_disconnect_keyed_by_userId stateD "c1" "c2" ⟨"u", "alice"⟩
      (by decide) (by decide) (by decide) (by decide)).2.2.2 "room-x" (by decide)⟩

theorem not_mem_sadd {y x : String} {l : List String} (h : y ∉ l) (hne : y ≠ x) :
    y ∉ sadd x l := by
  intro hm
  rcases mem_of_mem_sadd hm with h' | h'
  · exact hne h'
  · exact h h'

theorem avoid_getD {y r : String} {L : List (String × List String)}
    (h : ∀ e ∈ L, y ∉ e.2) : y ∉ (alookup r L).getD [] := by
  cases hq : alookup r L with
  | none => simp
  | some ms => simpa using h (r, ms) (alookup_mem hq)

theorem avoid_aset {y k : String} {v : List String} {L : List (String × List String)}
    (hL : ∀ e ∈ L, y ∉ e.2) (hv : y ∉ v) : ∀ e ∈ aset k v L, y ∉ e.2 := by
  intro e he
  rcases mem_aset he with rfl | he'
  · exact hv
  · exact hL e he'

theorem avoid_adapterLeave {y sid roomId : String} {L : List (String × List String)}
    (hL : ∀ e ∈ L, y ∉ e.2) : ∀ e ∈ adapterLeave sid roomId L, y ∉ e.2 := by
  induction L with
  | nil => intro e he; cases he
  | cons e0 L ih =>
      obtain ⟨r, ms⟩ := e0
      have hms : y ∉ ms := by simpa using hL (r, ms) (by simp)
      have hL' : ∀ e ∈ L, y ∉ e.2 := fun e he => hL e (List.mem_cons_of_mem _ he)
      intro e he
      by_cases hr : r = roomId
      · subst hr
        by_cases hie : (sdel sid ms).isEmpty
        · exact hL' e (by simpa [adapterLeave, hie] using he)
        · rcases List.mem_cons.1 (by simpa [adapterLeave, hie] using he) with rfl | he'
          · exact fun hm => hms (sdel_subset hm)
          · exact hL' e he'
      · rcases List.mem_cons.1 (by simpa [adapterLeave, hr] using he) with rfl | he'
        · exact hms
        · exact ih hL' e he'

theorem avoid_adapterLeaveAll {y sid : String} {L : List (String × List String)}
    (hL : ∀ e ∈ L, y ∉ e.2) : ∀ e ∈ adapterLeaveAll sid L, y ∉ e.2 := by
  induction L with
  | nil => intro e he; cases he
  | cons e0 L ih =>
      obtain ⟨r, ms⟩ := e0
      have hms : y ∉ ms := by simpa using hL (r, ms) (by simp)
      have hL' : ∀ e ∈ L, y ∉ e.2 := fun e he => hL e (List.mem_cons_of_mem _ he)
      intro e he
      by_cases hie : (sdel sid ms).isEmpty
      · exact ih hL' e (by simpa [adapterLeaveAll, hie] using he)
      · rcases List.mem_cons.1 (by simpa [adapterLeaveAll, hie] using he) with rfl | he'
        · exact fun hm => hms (sdel_subset hm)
        · exact ih hL' e he'

theorem adapterLeaveAll_avoid_self (sid : String) (L : List (String × List String)) :
    ∀ e ∈ adapterLeaveAll sid L, sid ∉ e.2 := by
  induction L with
  | nil => intro e he; cases he
  | cons e0 L ih =>
      obtain ⟨r, ms⟩ := e0
      intro e he
      by_cases hie : (sdel sid ms).isEmpty
      · exact ih e (by simpa [adapterLeaveAll, hie] using he)
      · rcases List.mem_cons.1 (by simpa [adapterLeaveAll, hie] using he) with rfl | he'
        · exact not_mem_sdel sid ms
        · exact ih e he'

theorem absent_after_disconnect (s : ServerState) (sid : String) :
    Absent sid (step s (.disconnect sid)).1 := by
  cases hq : alookup sid s.socketUser with
  | none =>
      simp only [step, hq]
      exact ⟨not_mem_sdel sid s.connected, adapterLeaveAll_avoid_self sid s.rooms⟩
  | some user =>
      simp only [step, hq]
      exact ⟨not_mem_sdel sid s.connected, adapterLeaveAll_avoid_self sid s.rooms⟩

theorem step_preserves_absent {sid : String} {s : ServerState} (e : Event)
    (hA : Absent sid s) (ha : e.actor ≠ sid) : Absent sid (step s e).1 := by
  obtain ⟨hc, hr⟩ := hA
  cases e with
  | connect sid' user =>
      exact ⟨not_mem_sadd hc (Ne.symm ha), hr⟩
  | joinRoom sid' roomId =>
      cases hq : alookup sid' s.socketUser with
      | none =>
          simp only [step, hq]
          exact ⟨hc, hr⟩
      | some user =>
          simp only [step, hq]
          exact ⟨hc, avoid_aset hr (not_mem_sadd (avoid_getD hr) (Ne.symm ha))⟩
  | leaveRoom sid' roomId =>
      cases hq : alookup sid' s.socketUser with
      | none =>
          simp only [step, hq]
          exact ⟨hc, hr⟩
      | some user =>
          simp only [step, hq]
          exact ⟨hc, avoid_adapterLeave hr⟩
  | sendMessage sid' p freshId now notifIds =>
      cases hq : alookup sid' s.socketUser with
      | none =>
          simp only [step, hq]
          exact ⟨hc, hr⟩
      | some user =>
          simp only [step, hq]
          exact ⟨hc, hr⟩
  | readNotification sid' nid =>
      exact ⟨hc, hr⟩
  | disconnect sid' =>
      cases hq : alookup sid' s.socketUser with
      | none =>
          simp only [step, hq]
          exact ⟨fun hm => hc (sdel_subset hm), avoid_adapterLeaveAll hr⟩
      | some user =>
          simp only [step, hq]
          exact ⟨fun hm => hc (sdel_subset hm), avoid_adapterLeaveAll hr⟩

theorem step_core_avoid {sid : String} {s : ServerState} (e : Event)
    (hA : Absent sid s) (ha : e.actor ≠ sid) :
    ∀ em ∈ (step s e).2, em.payload.isCore = true → sid ∉ em.targets := by
  obtain ⟨hc, hr⟩ := hA
  cases e with
  | connect sid' user =>
      intro em hem hcore
      simp only [step, List.mem_singleton] at hem
      rw [hem] at hcore
      simp [emitToSocket, Payload.isCore] at hcore
  | joinRoom sid' roomId =>
      cases hq : alookup sid' s.socketUser with
      | none => intro em hem; simp [step, hq] at hem
      | some user =>
          intro em hem hcore
          simp only [step, hq, List.mem_singleton] at hem
          rw [hem]
          show sid ∉ roomMembers _ roomId
          simp only [roomMembers, alookup_aset_self, Option.getD_some]
          exact not_mem_sadd (avoid_getD hr) (Ne.symm ha)
  | leaveRoom sid' roomId =>
      cases hq : alookup sid' s.socketUser with
      | none => intro em hem; simp [step, hq] at hem
      | some user => intro em hem; simp [step, hq] at hem
  | sendMessage sid' p freshId now notifIds =>
      cases hq : alookup sid' s.socketUser with
      | none => intro em hem; simp [step, hq] at hem
      | some user =>
          intro em hem hcore
          simp only [step, hq, List.mem_cons] at hem
          rcases hem with hem | hem
          · rw [hem]
            exact avoid_getD hr
          · by_cases hat : p.text.toList.contains '@' = true
            · rw [if_pos hat] at hem
              rcases List.mem_map.1 hem with ⟨a, _, hae⟩
              rw [← hae]
              exact hc
            · rw [if_neg hat] at hem
              cases hem
  | readNotification sid' nid =>
      intro em hem
      simp [step] at hem
  | disconnect sid' =>
      cases hq : alookup sid' s.socketUser with
      | none => intro em hem; simp [step, hq] at hem
      | some user =>
          intro em hem hcore
          simp only [step, hq, List.mem_append, List.mem_singleton, List.mem_map] at hem
          rcases hem with ⟨a, _, hae⟩ | hem
          · rw [← hae]
            show sid ∉ roomMembers _ a
            exact avoid_getD (avoid_adapterLeaveAll hr)
          · rw [hem] at hcore
            simp [emitToSocket, Payload.isCore] at hcore

theorem coreDeliveries_eq_nil {c : String} {ems : List Emit}
    (h : ∀ em ∈ ems, em.payload.isCore = true → c ∉ em.targets) :
    coreDeliveries c ems = [] := by
  induction ems with
  | nil => rfl
  | cons em ems ih =>
      have h1 := h em (by simp)
      have h2 : ∀ e ∈ ems, e.payload.isCore = true → c ∉ e.targets :=
        fun e he => h e (List.mem_cons_of_mem _ he)
      simp only [coreDeliveries, List.filterMap_cons]
      rw [if_neg (fun hand => h1 hand.1 hand.2)]
      exact ih h2

theorem coreDeliveries_append (c : String) (a b : List Emit) :
    coreDeliveries c (a ++ b) = coreDeliveries c a ++ coreDeliveries c b := by
  simp [coreDeliveries, List.filterMap_append]

theorem runSteps_core_nil {sid : String} : ∀ (tr : List Event) (s : ServerState),
    Absent sid s → (∀ e ∈ tr, Event.actor e ≠ sid) →
    coreDeliveries sid (runSteps s tr).2 = [] := by
  intro tr
  induction tr with
  | nil => intro s hA htr; rfl
  | cons e es ih =>
      intro s hA htr
      have ha : Event.actor e ≠ sid := htr e (by simp)
      have htr' : ∀ e' ∈ es, Event.actor e' ≠ sid :=
        fun e' he => htr e' (List.mem_cons_of_mem _ he)
      show coreDeliveries sid ((step s e).2 ++ (runSteps (step s e).1 es).2) = []
      rw [coreDeliveries_append,
        coreDeliveries_eq_nil (step_core_avoid e ⟨hA.1, hA.2⟩ ha),
        ih (step s e).1 (step_preserves_absent e hA ha) htr']
      rfl

theorem roomUpdates_disconnect_emits (R : List (String × List String))
    (affected : List String) :
    roomUpdates ((affected.map (fun roomId =>
        ({ targets := (alookup roomId R).getD []
           payload := .roomUpdate
             { id := roomId, name := roomName roomId
               users := (alookup roomId R).getD [] } } : Emit)))
      ++ [{ targets := [], payload := .connectionStateChange false }])
      = affected.map (fun roomId =>
          ({ id := roomId, name := roomName roomId
             users := (alookup roomId R).getD [] } : Room)) := by
  induction affected with
  | nil => rfl
  | cons a t ih =>
      simpa [roomUpdates, List.filterMap_cons] using ih

/-- Claim C4: on disconnect of the identity registered on socket `sid`,
exactly one `roomUpdate` is emitted per room in the identity's tracked room
set (in order, with no extras and no duplicates), every emitted roster
excludes the disconnected socket, the identity's entries in `activeUsers`
and `userRooms` are removed, and no `chatMessage`, `roomUpdate` or
`notification` is delivered to that socket by the disconnect processing
itself or by any later events arriving on other sockets. -/
theorem c4_disconnect_cleanup (s : ServerState) (sid : String) (user : User) (tr : List Event)
    (h : alookup sid s.socketUser = some user)
    (hnd : (userRoomsOf s user.id).Nodup)
    (htr : ∀ e ∈ tr, Event.actor e ≠ sid) :
    (roomUpdates (step s (.disconnect sid)).2).map Room.id = userRoomsOf s user.id
    ∧ ((roomUpdates (step s (.disconnect sid)).2).map Room.id).Nodup
    ∧ (∀ ru ∈ roomUpdates (step s (.disconnect sid)).2, sid ∉ ru.users)
    ∧ alookup user.id (step s (.disconnect sid)).1.activeUsers = none
    ∧ alookup user.id (step s (.disconnect sid)).1.userRooms = none
    ∧ coreDeliveries sid ((step s (.disconnect sid)).2
        ++ (runSteps (step s (.disconnect sid)).1 tr).2) = [] := by
  have e1 := step_disconnect_eq s sid user h
  have hids : (roomUpdates (step s (.disconnect sid)).2).map Room.id
      = userRoomsOf s user.id := by
    rw [e1]
    show (roomUpdates _).map Room.id = _
    rw [roomUpdates_disconnect_emits (adapterLeaveAll sid s.rooms) (userRoomsOf s user.id),
      List.map_map]
    show List.map (fun roomId : String => roomId) (userRoomsOf s user.id)
      = userRoomsOf s user.id
    simp
  refine ⟨hids, by rw [hids]; exact hnd, ?_, ?_, ?_, ?_⟩
  · intro ru hru
    rw [e1] at hru
    rw [roomUpdates_disconnect_emits (adapterLeaveAll sid s.rooms) (userRoomsOf s user.id)]
      at hru
    rcases List.mem_map.1 hru with ⟨a, _, hae⟩
    rw [← hae]
    exact avoid_getD (adapterLeaveAll_avoid_self sid s.rooms)
  · rw [e1]
    exact alookup_adel_self user.id s.activeUsers
  · rw [e1]
    exact alookup_adel_self user.id s.userRooms
  · rw [coreDeliveries_append]
    have hfst : coreDeliveries sid (step s (.disconnect sid)).2 = [] := by
      apply coreDeliveries_eq_nil
      rw [e1]
      intro em hem hcore
      simp only [List.mem_append, List.mem_singleton, List.mem_map] at hem
      rcases hem with ⟨a, _, hae⟩ | hem
      · rw [← hae]
        exact avoid_getD (adapterLeaveAll_avoid_self sid s.rooms)
      · rw [hem] at hcore
        simp [Payload.isCore] at hcore
    rw [hfst, runSteps_core_nil tr (step s (.disconnect sid)).1
      (absent_after_disconnect s sid) htr]
    rfl

/-- Witness for C4 at a concrete input: `"s1"` (identity `"u1"`, member of
`"room-general"` and `"beta"` in `stateB`) disconnects, then the events of
`traceC` — all on other sockets — are processed. -/
theorem c4_witness :
    (alookup "s1" stateB.socketUser = some uA
      ∧ (userRoomsOf stateB "u1").Nodup
      ∧ (∀ e ∈ traceC, Event.actor e ≠ "s1"))
    ∧ (roomUpdates (step stateB (.disconnect "s1")).2).map Room.id = userRoomsOf stateB "u1"
    ∧ ((roomUpdates (step stateB (.disconnect "s1")).2).map Room.id).Nodup
    ∧ (∀ ru ∈ roomUpdates (step stateB (.disconnect "s1")).2, "s1" ∉ ru.users)
    ∧ alookup "u1" (step stateB (.disconnect "s1")).1.activeUsers = none
    ∧ alookup "u1" (step stateB (.disconnect "s1")).1.userRooms = none
    ∧ coreDeliveries "s1" ((step stateB (.disconnect "s1")).2
        ++ (runSteps (step stateB (.disconnect "s1")).1 traceC).2) = [] :=
  ⟨⟨by decide, by decide, by decide⟩,
    c4_disconnect_cleanup stateB "s1" uA traceC (by decide) (by decide) (by decide)⟩

end Relay
